import Mathlib

/-!
Verification of the Outline server-manager Yandex provisioning orchestrator.

This file is a shallow embedding of the installation state machine, the
guest-attribute poll loop, the retrying create-instance call, the host
teardown sequence, the long-running-operation waiters, the zone-URL parser
and the instance-name sanitizer found in
`src/server_manager/www/yandex_account.ts` and
`src/server_manager/cloud/yandex_api.ts`, together with proofs about them.
-/

/-! ### Installation state machine data model (yandex_account.ts, enum InstallState) -/

/-- The `InstallState` enum from yandex_account.ts.  The TS enum assigns
consecutive numeric values starting at `UNKNOWN = 0`. -/
inductive InstallState where
  | UNKNOWN
  | INSTANCE_CREATED
  | IP_ALLOCATED
  | INSTANCE_RUNNING
  | CERTIFICATE_CREATED
  | COMPLETED
  | FAILED
  | CANCELED
deriving DecidableEq, Repr

/-- The numeric value the TS enum assigns to each `InstallState`. -/
def stateOrder : InstallState → Nat
  | .UNKNOWN => 0
  | .INSTANCE_CREATED => 1
  | .IP_ALLOCATED => 2
  | .INSTANCE_RUNNING => 3
  | .CERTIFICATE_CREATED => 4
  | .COMPLETED => 5
  | .FAILED => 6
  | .CANCELED => 7

/-- `isFinal` from yandex_account.ts: the three terminal states. -/
def isFinal (state : InstallState) : Bool :=
  state = InstallState.COMPLETED || state = InstallState.FAILED ||
    state = InstallState.CANCELED

/-- `getCompletionFraction` from yandex_account.ts.  The TS function returns
floating-point literals; they are embedded as the exact rationals those
literals denote (the claims only inspect the value `1.0`, which is exact). -/
def getCompletionFraction : InstallState → ℚ
  | .UNKNOWN => 1 / 100
  | .INSTANCE_CREATED => 12 / 100
  | .IP_ALLOCATED => 14 / 100
  | .INSTANCE_RUNNING => 40 / 100
  | .CERTIFICATE_CREATED => 70 / 100
  | .COMPLETED => 1
  | _ => 0

/-! ### Guest attributes (yandex_account.ts getOutlineGuestAttributes) -/

/-- A guest-attribute snapshot: the `Map<string, string>` built by
`getOutlineGuestAttributes`, represented as an association list. -/
abbrev GuestAttrs : Type := List (String × String)

def kApiUrl : String := "apiUrl"
def kCertSha256 : String := "certSha256"
def kInstallError : String := "install-error"
def kInstallStarted : String := "install-started"

/-- `Map.has` on a guest-attribute snapshot. -/
def hasKey (attrs : GuestAttrs) (k : String) : Bool :=
  attrs.any (fun e => e.1 == k)

/-- `Map.get` on a guest-attribute snapshot. -/
def getKey (attrs : GuestAttrs) (k : String) : Option String :=
  (attrs.find? (fun e => e.1 == k)).map (fun e => e.2)

/-- One decision of the poll-loop body in `pollInstallState`
(yandex_account.ts lines 516-539): which branch of the if/else-if chain
fires for a given snapshot.  `completed` carries the `apiUrl` and the raw
`certSha256` attribute values handed to `makePathApiClient` (the browser
`atob` base64 decode applied to the fingerprint is a platform function,
outside the repository; the raw attribute value is recorded). -/
inductive PollAction where
  | completed (apiUrl : String) (certSha256 : String)
  | failed
  | certificateCreated
  | instanceRunning
  | noChange
deriving DecidableEq, Repr

/-- The branch selection of one iteration of `pollInstallState`, translated
directly from the if/else-if chain in the source. -/
def pollDecision (attrs : GuestAttrs) : PollAction :=
  if hasKey attrs kApiUrl && hasKey attrs kCertSha256 then
    PollAction.completed ((getKey attrs kApiUrl).getD "")
      ((getKey attrs kCertSha256).getD "")
  else if hasKey attrs kInstallError then
    PollAction.failed
  else if hasKey attrs kCertSha256 then
    PollAction.certificateCreated
  else if hasKey attrs kInstallStarted then
    PollAction.instanceRunning
  else
    PollAction.noChange

/-- The `InstallState` a poll action passes to `setInstallState`
(`noChange` makes no call). -/
def actionState : PollAction → Option InstallState
  | .completed _ _ => some .COMPLETED
  | .failed => some .FAILED
  | .certificateCreated => some .CERTIFICATE_CREATED
  | .instanceRunning => some .INSTANCE_RUNNING
  | .noChange => none

/-! ### The state machine itself -/

/-- The observable state of `YandexServer.installState`: the current value of
the `ValueStream` and whether the stream has been closed. -/
structure InstallMachine where
  state : InstallState
  closed : Bool
deriving DecidableEq, Repr

/-- `new ValueStream<InstallState>(InstallState.UNKNOWN)`. -/
def initialMachine : InstallMachine := ⟨.UNKNOWN, false⟩

/-- `setInstallState` from yandex_account.ts: set the stream value and close
the stream when the new state is terminal.  Modelled from the spec:
`ValueStream` (from `@outline/infrastructure/value_stream`, not under src/)
closes the machine to further writes once a terminal state is reached, so a
write to a closed stream is ignored. -/
def setInstallState (newState : InstallState) (m : InstallMachine) : InstallMachine :=
  if m.closed then m else ⟨newState, isFinal newState⟩

/-- One iteration of the `pollInstallState` loop on a snapshot: the loop
body runs only while the stream is open, and calls `setInstallState` with
the state selected by the if/else-if chain (if any). -/
def pollStep (m : InstallMachine) (attrs : GuestAttrs) : InstallMachine :=
  if m.closed then m
  else
    match actionState (pollDecision attrs) with
    | some s => setInstallState s m
    | none => m

/-- The machine state at which `pollInstallState` starts: the constructor
continuation calls it immediately after `setInstallState(IP_ALLOCATED)`. -/
def pollStartMachine : InstallMachine := ⟨.IP_ALLOCATED, false⟩

/-- `YandexServer.onDelete`: transition to `CANCELED` unless the stream is
already closed. -/
def onDelete (m : InstallMachine) : InstallMachine :=
  if m.closed then m else setInstallState .CANCELED m

/-- The machines reachable from the initial machine by some sequence of
`setInstallState` calls (every transition in yandex_account.ts — the
constructor continuation, its catch handler, the poll loop and `onDelete` —
goes through `setInstallState`). -/
def ReachableMachine (m : InstallMachine) : Prop :=
  ∃ sets : List InstallState,
    m = sets.foldl (fun acc s => setInstallState s acc) initialMachine

/-! ### Progress monitoring (yandex_account.ts monitorInstallProgress) -/

/-- The two error kinds `monitorInstallProgress` can raise. -/
inductive InstallErrorKind where
  | serverInstallFailed
  | serverInstallCanceled
deriving DecidableEq, Repr

/-- `monitorInstallProgress` from yandex_account.ts, as a function of the
sequence of states the `ValueStream.watch()` iterator delivered before the
stream closed (`history`) and the final recorded state (`final`): the
generator yields the completion fraction of every watched state; after the
loop it throws `ServerInstallFailedError` when the final state is `FAILED`,
throws `ServerInstallCanceledError` when it is `CANCELED`, and otherwise
yields one more fraction, that of the final state. -/
def monitorInstallProgress (history : List InstallState) (final : InstallState) :
    List ℚ × Option InstallErrorKind :=
  let yielded := history.map getCompletionFraction
  if final = InstallState.FAILED then (yielded, some .serverInstallFailed)
  else if final = InstallState.CANCELED then (yielded, some .serverInstallCanceled)
  else (yielded ++ [getCompletionFraction final], none)

/-! ### Errors of the REST API client (yandex_api.ts) -/

/-- The error values that can travel through the orchestrator:
`HttpError(status, statusText)` thrown by `fetchUnauthenticated` on a
non-2xx response, `GcpError(code, message)` thrown by the zone operation
waiter (either field is `undefined` when the error list is empty, hence
`Option`), and `ServerInstallFailedError(message)` thrown by the
orchestration code in yandex_account.ts. -/
inductive ApiError where
  | httpError (statusCode : Nat) (statusText : String)
  | gcpError (code : Option String) (message : Option String)
  | serverInstallFailed (message : String)
deriving DecidableEq, Repr

/-- `is404` from yandex_account.ts: the error is an `HttpError` whose status
code is 404. -/
def is404 : ApiError → Bool
  | .httpError statusCode _ => statusCode == 404
  | _ => false

/-- The JS template-literal string conversion applied by
`ServerInstallFailedError` message construction. -/
def errText : ApiError → String
  | .httpError statusCode statusText =>
      "HttpError: " ++ toString statusCode ++ " " ++ statusText
  | .gcpError _ message => "GcpError: " ++ message.getD ""
  | .serverInstallFailed message => "Error: " ++ message

/-! ### Long-running operation waiters (yandex_api.ts lines 476-514) -/

/-- One entry of a compute-engine operation's embedded error list. -/
structure OperationErrorEntry where
  code : String
  message : String
deriving DecidableEq, Repr

/-- A `ComputeEngineOperation` as inspected by the waiters: `error = some l`
models `operation.error.errors` being present (the list `l` may be empty,
matching the JS truthiness of an empty array), `none` models
`operation.error?.errors` being undefined. -/
structure ComputeEngineOperation where
  opName : String
  error : Option (List OperationErrorEntry)
deriving DecidableEq, Repr

/-- `computeEngineOperationZoneWait`, given the operation the wait
endpoint resolved to: when `operation.error?.errors` is present it throws a
`GcpError` built from the first entry's code and message (`undefined` when
the list is empty); otherwise it returns the operation. -/
def computeEngineOperationZoneWait (operation : ComputeEngineOperation) :
    Except ApiError ComputeEngineOperation :=
  match operation.error with
  | some errs =>
      .error (.gcpError (errs.head?.map (fun e => e.code))
        (errs.head?.map (fun e => e.message)))
  | none => .ok operation

/-- `computeEngineOperationRegionWait`: returns the resolved operation with
no inspection of its embedded error list (source lines 494-503). -/
def computeEngineOperationRegionWait (operation : ComputeEngineOperation) :
    Except ApiError ComputeEngineOperation :=
  .ok operation

/-- `computeEngineOperationGlobalWait`: returns the resolved operation with
no inspection of its embedded error list (source lines 505-514). -/
def computeEngineOperationGlobalWait (operation : ComputeEngineOperation) :
    Except ApiError ComputeEngineOperation :=
  .ok operation

/-! ### 404 conversion sites (yandex_account.ts hasStaticIp,
yandex_api.ts getGuestAttributes) -/

/-- A static IP resource as returned by `getStaticIp`. -/
structure StaticIp where
  ipName : String
  address : String
deriving DecidableEq, Repr

/-- `YandexServer.hasStaticIp`, as a function of the outcome of the
`getStaticIp` call: success means `true`, a 404 `HttpError` means `false`,
and any other error is wrapped in a new `ServerInstallFailedError`. -/
def hasStaticIp (fetched : Except ApiError StaticIp) : Except ApiError Bool :=
  match fetched with
  | .ok _ => .ok true
  | .error e =>
      if is404 e then .ok false
      else .error (.serverInstallFailed ("Static IP check failed: " ++ errText e))

/-- The `GuestAttributes` response shape of the REST endpoint:
`queryValue?.items` flattened to an optional entry list. -/
structure GuestAttributes where
  queryValueItems : Option (List (String × String))
deriving DecidableEq, Repr

/-- `RestApiClient.getGuestAttributes`, as a function of the outcome of the
underlying fetch: the whole call is wrapped in try/catch and every error —
404 or not — results in `undefined` (source lines 340-355). -/
def getGuestAttributes (fetched : Except ApiError GuestAttributes) :
    Option GuestAttributes :=
  match fetched with
  | .ok g => some g
  | .error _ => none

/-- `getOutlineGuestAttributes`: build the key/value map from
`guestAttributes?.queryValue?.items ?? []` by successive `Map.set` calls. -/
def getOutlineGuestAttributes (resp : Option GuestAttributes) : GuestAttrs :=
  let items := (resp.bind (fun g => g.queryValueItems)).getD []
  items.foldl
    (fun m e =>
      if m.any (fun p => p.1 == e.1) then
        m.map (fun p => if p.1 == e.1 then (p.1, e.2) else p)
      else m ++ [e])
    []

/-! ### Host teardown (yandex_account.ts YandexHost.delete / waitForDelete) -/

/-- The observable steps of `YandexHost.delete()`, in the order they are
performed. -/
inductive DeleteEvent where
  | cancelSignal
  | awaitReadiness
  | requestDeleteStaticIp
  | requestDeleteInstance
deriving DecidableEq, Repr

/-- The environment a `delete()` call runs against: how the
instance-creation readiness promise settles and how the two deletion
requests settle. -/
structure DeleteEnv where
  readiness : Except ApiError Unit
  staticIpDeletion : Except ApiError ComputeEngineOperation
  instanceDeletion : Except ApiError ComputeEngineOperation
deriving Repr

/-- `YandexHost.waitForDelete`: await the deletion; a 404 `HttpError` is
logged and treated as success, any other error is re-thrown. -/
def waitForDelete (deletion : Except ApiError ComputeEngineOperation) :
    Except ApiError Unit :=
  match deletion with
  | .ok _ => .ok ()
  | .error e => if is404 e then .ok () else .error e

/-- `YandexHost.delete()`: signal cancellation through `deleteCallback`
first, await `instanceReadiness` swallowing its error, then request static
address deletion and instance deletion, each through `waitForDelete`.
Returns the event trace and the settlement of the returned promise. -/
def hostDelete (env : DeleteEnv) : List DeleteEvent × Except ApiError Unit :=
  let ev0 := [DeleteEvent.cancelSignal, DeleteEvent.awaitReadiness]
  match waitForDelete env.staticIpDeletion with
  | .error e => (ev0 ++ [DeleteEvent.requestDeleteStaticIp], .error e)
  | .ok _ =>
      (ev0 ++ [DeleteEvent.requestDeleteStaticIp, DeleteEvent.requestDeleteInstance],
        waitForDelete env.instanceDeletion)

/-! ### Retrying create-instance call (yandex_api.ts
RestApiSession.makeCreateInstanceRequest) -/

/-- The error shape the retry logic inspects: an object with a `message`. -/
structure CreateErr where
  message : String
deriving DecidableEq, Repr

/-- List-prefix test (needle is a prefix of the haystack). -/
def isPre : List Char → List Char → Bool
  | [], _ => true
  | _ :: _, [] => false
  | a :: as, b :: bs => a == b && isPre as bs

/-- Substring test: JS `hay.indexOf(needle) >= 0`. -/
def hasSub (needle : List Char) : List Char → Bool
  | [] => isPre needle []
  | h :: t => isPre needle (h :: t) || hasSub needle t

/-- JS `String.prototype.toLowerCase`, modelled as per-character
lowercasing. -/
def toLowerStr (s : String) : String := ⟨s.data.map Char.toLower⟩

/-- The retry condition of `makeCreateInstanceRequest`:
`e.message.toLowerCase().indexOf('finalizing') >= 0`. -/
def isFinalizingError (e : CreateErr) : Bool :=
  hasSub "finalizing".data (toLowerStr e.message).data

def MAX_REQUESTS : Nat := 10
def RETRY_TIMEOUT_MS : Nat := 5000

/-- The recursion of `makeCreateInstanceRequest`, with `count` the number of
requests already made: increment the counter, issue the request
(`outcomes attempt` is how attempt number `attempt` settles), fulfill on
success, retry on a finalizing error while fewer than `MAX_REQUESTS`
attempts have been made, and otherwise reject with the underlying error. -/
def makeCreateInstanceRequestFrom {α : Type} (outcomes : Nat → Except CreateErr α)
    (count : Nat) : Except CreateErr α :=
  let attempt := count + 1
  match outcomes attempt with
  | .ok r => .ok r
  | .error e =>
      if isFinalizingError e = true ∧ attempt < MAX_REQUESTS then
        makeCreateInstanceRequestFrom outcomes attempt
      else
        .error e
termination_by MAX_REQUESTS - count
decreasing_by omega

/-- `makeCreateInstanceRequest`: the recursion started with
`requestCount = 0`. -/
def makeCreateInstanceRequest {α : Type} (outcomes : Nat → Except CreateErr α) :
    Except CreateErr α :=
  makeCreateInstanceRequestFrom outcomes 0

/-- The `setTimeout` delays scheduled by the recursion, in milliseconds. -/
def createDelaysFrom {α : Type} (outcomes : Nat → Except CreateErr α)
    (count : Nat) : List Nat :=
  let attempt := count + 1
  match outcomes attempt with
  | .ok _ => []
  | .error e =>
      if isFinalizingError e = true ∧ attempt < MAX_REQUESTS then
        RETRY_TIMEOUT_MS :: createDelaysFrom outcomes attempt
      else
        []
termination_by MAX_REQUESTS - count
decreasing_by omega

/-- The delays of a whole `makeCreateInstanceRequest` call. -/
def createDelays {α : Type} (outcomes : Nat → Except CreateErr α) : List Nat :=
  createDelaysFrom outcomes 0

/-! ### Zone URL parsing (yandex_api.ts parseZoneUrl) -/

/-- A `ZoneLocator`. -/
structure ZoneLocator where
  projectId : String
  zoneId : String
deriving DecidableEq, Repr

/-- The error kinds relevant to `parseZoneUrl`: the JS `TypeError` the code
actually produces when `pathname.match(...)` is `null` and `.groups` is
read from it, and `parseError`, which is modelled from the spec: the spec
posits a dedicated `ParseError` format-error kind, which does not exist in
the repository code. -/
inductive JsError where
  | typeError (message : String)
  | parseError (message : String)
deriving DecidableEq, Repr

/-- Split a character list at every slash (the segment decomposition the
regular expression performs on the URL pathname). -/
def splitSlash : List Char → List (List Char)
  | [] => [[]]
  | c :: rest =>
    if c = '/' then [] :: splitSlash rest
    else
      match splitSlash rest with
      | [] => [[c]]
      | s :: ss => (c :: s) :: ss

/-- The regular expression
`/compute/v1/projects/(?<projectId>[^/]+)/zones/(?<zoneId>[^/]+)$`
applied to the pathname's slash-separated segments: the pathname must end
in the six segments `compute / v1 / projects / <p> / zones / <z>` with
`<p>` and `<z>` nonempty, preceded by at least one further segment
(the slash before `compute` required by the pattern). -/
def matchZoneSegments (parts : List (List Char)) : Option (List Char × List Char) :=
  match parts.reverse with
  | z :: zs :: p :: pr :: v :: cm :: _ :: _ =>
      if zs = "zones".data ∧ pr = "projects".data ∧ v = "v1".data ∧
          cm = "compute".data ∧ p ≠ [] ∧ z ≠ [] then
        some (p, z)
      else none
  | _ => none

/-- `parseZoneUrl`, as a function of the URL's pathname: on a match it
returns the captured `{projectId, zoneId}`; when the pattern does not match
the code reads `.groups` from the `null` returned by `match`, which throws
a JS `TypeError` (there is no dedicated parse-error type in the code). -/
def parseZoneUrl (pathname : String) : Except JsError ZoneLocator :=
  match matchZoneSegments (splitSlash pathname.data) with
  | some (p, z) => .ok ⟨⟨p⟩, ⟨z⟩⟩
  | none => .error (.typeError "Cannot read properties of null reading groups")

/-- Whether a `parseZoneUrl` outcome is the spec's posited `ParseError`. -/
def isParseErrorResult : Except JsError ZoneLocator → Bool
  | .error (.parseError _) => true
  | _ => false

/-! ### Instance-name sanitizing (yandex_api.ts makeValidInstanceName,
RestApiSession.createInstance) -/

/-- The character class `[A-Za-z0-9-]` of the replacement regex. -/
def isValidNameChar (c : Char) : Bool :=
  ('A' ≤ c && c ≤ 'Z') || ('a' ≤ c && c ≤ 'z') || ('0' ≤ c && c ≤ '9') || c == '-'

/-- `makeValidInstanceName`: `name.replace(/[^A-Za-z0-9-]/g, '')` — every
character outside `[A-Za-z0-9-]` is removed. -/
def makeValidInstanceName (name : String) : String :=
  ⟨name.data.filter isValidNameChar⟩

/-- The names `RestApiSession.createInstance` actually sends: the sanitized
`instanceName` is computed once and passed both to `registerKey_` and to
`makeCreateInstanceRequest`. -/
structure CreateInstanceNames where
  keyRegistrationName : String
  instanceRequestName : String
deriving DecidableEq, Repr

/-- The name dataflow of `RestApiSession.createInstance`. -/
def createInstanceNames (displayName : String) : CreateInstanceNames :=
  let instanceName := makeValidInstanceName displayName
  ⟨instanceName, instanceName⟩

/-! ### Auxiliary predicates for the state-machine proofs -/

/-- Accumulation of the watched guest-attribute keys between two successive
snapshots: every milestone key present in the first is still present in the
second. -/
abbrev keysMono (a b : GuestAttrs) : Prop :=
  (hasKey a kApiUrl = true → hasKey b kApiUrl = true)
  ∧ (hasKey a kCertSha256 = true → hasKey b kCertSha256 = true)
  ∧ (hasKey a kInstallError = true → hasKey b kInstallError = true)
  ∧ (hasKey a kInstallStarted = true → hasKey b kInstallStarted = true)

/-- The loop invariant of the poll phase: while the stream is open, the
recorded state is either still the `IP_ALLOCATED` start state or the
non-terminal state fired by the previous snapshot. -/
def pollInv (prev : GuestAttrs) (m : InstallMachine) : Prop :=
  m.closed = false →
    m.state = .IP_ALLOCATED
    ∨ (actionState (pollDecision prev) = some m.state ∧ isFinal m.state = false)

/-! ## C10: instance-name sanitizing -/

/-- C10: for every display name passed to `RestApiSession.createInstance`,
the name used both for SSH-key registration and for the instance-creation
request is the input with every character outside `[A-Za-z0-9-]` removed;
the raw display name is never sent when it contains any other character,
and a name consisting only of such characters becomes the empty string. -/
theorem makeValidInstanceName_spec (displayName : String) :
    (createInstanceNames displayName).keyRegistrationName =
        makeValidInstanceName displayName
  ∧ (createInstanceNames displayName).instanceRequestName =
        makeValidInstanceName displayName
  ∧ (makeValidInstanceName displayName).data =
        displayName.data.filter isValidNameChar
  ∧ (∀ c ∈ (makeValidInstanceName displayName).data, isValidNameChar c = true)
  ∧ ((∃ c ∈ displayName.data, isValidNameChar c = false) →
        (createInstanceNames displayName).instanceRequestName ≠ displayName)
  ∧ ((∀ c ∈ displayName.data, isValidNameChar c = false) →
        makeValidInstanceName displayName = "") := by
  refine ⟨rfl, rfl, rfl, ?_, ?_, ?_⟩
  · intro c hc
    exact (List.mem_filter.mp hc).2
  · rintro ⟨c, hc, hcbad⟩ heq
    have hdata : displayName.data.filter isValidNameChar = displayName.data :=
      congrArg String.data heq
    have hmem : c ∈ displayName.data.filter isValidNameChar := by
      rw [hdata]; exact hc
    have := (List.mem_filter.mp hmem).2
    simp [hcbad] at this
  · intro hall
    have : displayName.data.filter isValidNameChar = [] := by
      rw [List.filter_eq_nil_iff]
      intro c hc
      simp [hall c hc]
    show (⟨displayName.data.filter isValidNameChar⟩ : String) = ""
    rw [this]

/-- Witness for C10 at concrete inputs. -/
theorem makeValidInstanceName_witness :
    makeValidInstanceName "My Server!" = "MyServer"
  ∧ (createInstanceNames "My Server!").instanceRequestName ≠ "My Server!"
  ∧ makeValidInstanceName "_ !" = "" :=
  ⟨by decide,
   (makeValidInstanceName_spec "My Server!").2.2.2.2.1 ⟨' ', by decide, by decide⟩,
   (makeValidInstanceName_spec "_ !").2.2.2.2.2 (by decide)⟩

/-! ## C7: long-running-operation waiters -/

/-- C7 counterexample: the region-scoped waiter returns an operation that
carries a non-empty embedded error list unchanged instead of raising a
typed error, refuting the claim for the region (and project/global)
variants. -/
theorem regionWait_ignores_errors_counterexample :
    computeEngineOperationRegionWait
        ⟨"operation-123", some [⟨"RESOURCE_EXHAUSTED", "quota exceeded"⟩]⟩
      = .ok ⟨"operation-123", some [⟨"RESOURCE_EXHAUSTED", "quota exceeded"⟩]⟩
  ∧ (⟨"operation-123", some [⟨"RESOURCE_EXHAUSTED", "quota exceeded"⟩]⟩ :
        ComputeEngineOperation).error ≠ none :=
  ⟨rfl, by simp⟩

/-- C7 amended: only the zone-scoped waiter inspects the resolved
operation's embedded error list, raising a `GcpError` from the first
entry's code and message (remaining entries discarded); the region and
project/global variants return the resolved operation unchanged no matter
what its error list contains; every variant returns the operation when the
error list is absent. -/
theorem operationWait_spec (operation : ComputeEngineOperation) :
    (∀ errs, operation.error = some errs →
        computeEngineOperationZoneWait operation =
          .error (.gcpError (errs.head?.map (fun e => e.code))
            (errs.head?.map (fun e => e.message))))
  ∧ (operation.error = none →
        computeEngineOperationZoneWait operation = .ok operation)
  ∧ computeEngineOperationRegionWait operation = .ok operation
  ∧ computeEngineOperationGlobalWait operation = .ok operation := by
  refine ⟨fun errs h => ?_, fun h => ?_, rfl, rfl⟩ <;>
    simp [computeEngineOperationZoneWait, h]

/-- Witness for C7 at a concrete operation. -/
theorem operationWait_witness :
    computeEngineOperationZoneWait ⟨"operation-9", some [⟨"NOT_FOUND", "gone"⟩]⟩
      = .error (.gcpError (some "NOT_FOUND") (some "gone"))
  ∧ computeEngineOperationZoneWait ⟨"operation-8", none⟩ = .ok ⟨"operation-8", none⟩ :=
  ⟨(operationWait_spec ⟨"operation-9", some [⟨"NOT_FOUND", "gone"⟩]⟩).1 _ rfl,
   (operationWait_spec ⟨"operation-8", none⟩).2.1 rfl⟩

/-! ## C8: 404 conversion sites -/

/-- C8 counterexample: the guest-attribute fetch absorbs a non-404 error
(HTTP 500) into an absent result instead of propagating it, and the
static-address pre-check does not re-raise a non-404 error unchanged (it
wraps it in a `ServerInstallFailedError`), refuting the claim. -/
theorem guestAttributes_absorb_counterexample :
    getGuestAttributes (.error (.httpError 500 "Internal Server Error")) = none
  ∧ is404 (.httpError 500 "Internal Server Error") = false
  ∧ hasStaticIp (.error (.httpError 500 "Internal Server Error"))
      ≠ .error (.httpError 500 "Internal Server Error") := by
  refine ⟨rfl, rfl, ?_⟩
  simp [hasStaticIp, is404, errText]

/-- C8 amended: the static-address pre-check converts a 404 `HttpError`
into `false` and turns every other error into a `ServerInstallFailedError`
wrapping it (not the original error unchanged); the guest-attribute fetch
converts every error — 404 or not — into an absent result. -/
theorem notFound_conversion_spec :
    (∀ ip : StaticIp, hasStaticIp (.ok ip) = .ok true)
  ∧ (∀ e : ApiError, is404 e = true → hasStaticIp (.error e) = .ok false)
  ∧ (∀ e : ApiError, is404 e = false →
      hasStaticIp (.error e) =
        .error (.serverInstallFailed ("Static IP check failed: " ++ errText e)))
  ∧ (∀ g : GuestAttributes, getGuestAttributes (.ok g) = some g)
  ∧ (∀ e : ApiError, getGuestAttributes (.error e) = none) := by
  refine ⟨fun ip => rfl, fun e h => ?_, fun e h => ?_, fun g => rfl, fun e => rfl⟩ <;>
    simp [hasStaticIp, h]

/-- Witness for C8 at concrete outcomes. -/
theorem notFound_conversion_witness :
    hasStaticIp (.error (.httpError 404 "Not Found")) = .ok false
  ∧ getGuestAttributes (.error (.httpError 403 "Forbidden")) = none :=
  ⟨notFound_conversion_spec.2.1 (.httpError 404 "Not Found") rfl,
   notFound_conversion_spec.2.2.2.2 (.httpError 403 "Forbidden")⟩

/-! ## C4: host teardown sequence -/

/-- C4: every `YandexHost.delete()` execution signals cancellation first,
then awaits the readiness future with any rejection swallowed (the result
does not depend on how readiness settles), then requests static-address
deletion, then — exactly when the static-address step succeeded or hit a
404 — requests instance deletion; each deletion step treats a 404
`HttpError` as success, and any other deletion error becomes the rejection
of `delete()` unchanged. -/
theorem yandexHost_delete_spec (env : DeleteEnv) :
    (hostDelete env).1.head? = some DeleteEvent.cancelSignal
  ∧ (∀ r, hostDelete ⟨r, env.staticIpDeletion, env.instanceDeletion⟩ = hostDelete env)
  ∧ (hostDelete env).1 =
      [DeleteEvent.cancelSignal, DeleteEvent.awaitReadiness,
          DeleteEvent.requestDeleteStaticIp] ++
        (match waitForDelete env.staticIpDeletion with
          | .ok _ => [DeleteEvent.requestDeleteInstance]
          | .error _ => [])
  ∧ (∀ e, env.staticIpDeletion = .error e → is404 e = false →
        (hostDelete env).2 = .error e)
  ∧ (∀ e, env.staticIpDeletion = .error e → is404 e = true →
        (hostDelete env).2 = waitForDelete env.instanceDeletion)
  ∧ (∀ operation, env.staticIpDeletion = .ok operation →
        (hostDelete env).2 = waitForDelete env.instanceDeletion)
  ∧ (∀ e, waitForDelete (.error e) = if is404 e then .ok () else .error e)
  ∧ (∀ operation, waitForDelete (.ok operation) = .ok ()) := by
  obtain ⟨r, sdel, idel⟩ := env
  refine ⟨?_, fun r' => rfl, ?_, ?_, ?_, ?_, fun e => rfl, fun operation => rfl⟩ <;>
    cases sdel with
  | ok operation => simp [hostDelete, waitForDelete]
  | error e =>
      by_cases h404 : is404 e = true <;>
        simp_all [hostDelete, waitForDelete]

/-- Witness for C4: a teardown whose setup failed, whose static address was
already gone (404) and whose instance deletion succeeds resolves cleanly,
with cancellation signalled first. -/
theorem yandexHost_delete_witness :
    (hostDelete ⟨.error (.httpError 500 "setup failed"),
        .error (.httpError 404 "address not found"), .ok ⟨"operation-del", none⟩⟩).2
      = .ok ()
  ∧ (hostDelete ⟨.error (.httpError 500 "setup failed"),
        .error (.httpError 404 "address not found"), .ok ⟨"operation-del", none⟩⟩).1.head?
      = some DeleteEvent.cancelSignal := by
  have h := yandexHost_delete_spec ⟨.error (.httpError 500 "setup failed"),
    .error (.httpError 404 "address not found"), .ok ⟨"operation-del", none⟩⟩
  refine ⟨?_, h.1⟩
  rw [h.2.2.2.2.1 (.httpError 404 "address not found") rfl rfl]
  rfl

/-! ## C5: cancellation via onDelete -/

/-- On every reachable machine, the stream is closed exactly when the
recorded state is terminal. -/
theorem reachable_closed_eq_isFinal (m : InstallMachine) (h : ReachableMachine m) :
    m.closed = isFinal m.state := by
  obtain ⟨sets, rfl⟩ := h
  suffices H : ∀ acc : InstallMachine, acc.closed = isFinal acc.state →
      (sets.foldl (fun acc s => setInstallState s acc) acc).closed =
        isFinal (sets.foldl (fun acc s => setInstallState s acc) acc).state from
    H initialMachine rfl
  induction sets with
  | nil => intro acc hacc; exact hacc
  | cons s t ih =>
      intro acc hacc
      simp only [List.foldl_cons]
      apply ih
      cases hc : acc.closed <;> simp [setInstallState, hc, hacc]
      rw [← hacc, hc]

/-- C5: requesting deletion on a reachable machine in a non-terminal state
transitions it to `CANCELED` (closing the stream, so the progress sequence
subsequently surfaces the cancellation error); requesting deletion when the
recorded state is terminal leaves the machine unchanged. -/
theorem onDelete_cancel_spec (m : InstallMachine) (hm : ReachableMachine m) :
    (isFinal m.state = false →
        (onDelete m).state = .CANCELED ∧ (onDelete m).closed = true
      ∧ (monitorInstallProgress [] (onDelete m).state).2 = some .serverInstallCanceled)
  ∧ (isFinal m.state = true → onDelete m = m) := by
  have hc := reachable_closed_eq_isFinal m hm
  constructor
  · intro h
    have hopen : m.closed = false := hc.trans h
    refine ⟨?_, ?_, ?_⟩ <;> simp [onDelete, setInstallState, hopen, isFinal,
      monitorInstallProgress]
  · intro h
    have hclosed : m.closed = true := hc.trans h
    simp [onDelete, hclosed]

/-- Witness for C5: deletion requested on the freshly constructed machine
(state `UNKNOWN`, non-terminal) records `CANCELED`. -/
theorem onDelete_cancel_witness :
    (onDelete initialMachine).state = .CANCELED
  ∧ (onDelete initialMachine).closed = true
  ∧ (monitorInstallProgress [] (onDelete initialMachine).state).2
      = some .serverInstallCanceled :=
  (onDelete_cancel_spec initialMachine ⟨[], rfl⟩).1 rfl

/-! ## C6: progress sequence termination -/

/-- C6: for every terminal state, the progress sequence ends and then: a
final state of `FAILED` surfaces the install-failure error, `CANCELED`
surfaces the cancellation error, and `COMPLETED` ends without error with
the completion fraction `1.0` as the last yielded value. -/
theorem monitorInstallProgress_terminal_spec (history : List InstallState)
    (final : InstallState) (hfinal : isFinal final = true) :
    (final = .FAILED →
        (monitorInstallProgress history final).2 = some .serverInstallFailed)
  ∧ (final = .CANCELED →
        (monitorInstallProgress history final).2 = some .serverInstallCanceled)
  ∧ (final = .COMPLETED →
        (monitorInstallProgress history final).2 = none
      ∧ (monitorInstallProgress history final).1.getLast? = some 1
      ∧ getCompletionFraction .COMPLETED = 1) := by
  refine ⟨fun h => by subst h; rfl, fun h => by subst h; rfl, fun h => ?_⟩
  subst h
  refine ⟨rfl, ?_, rfl⟩
  simp [monitorInstallProgress, getCompletionFraction]

/-- Witness for C6 at a concrete history and each terminal state. -/
theorem monitorInstallProgress_terminal_witness :
    (monitorInstallProgress [.UNKNOWN, .IP_ALLOCATED] .CANCELED).2
      = some .serverInstallCanceled
  ∧ (monitorInstallProgress [.UNKNOWN, .IP_ALLOCATED] .COMPLETED).2 = none
  ∧ (monitorInstallProgress [.UNKNOWN, .IP_ALLOCATED] .COMPLETED).1.getLast?
      = some 1 :=
  ⟨(monitorInstallProgress_terminal_spec [.UNKNOWN, .IP_ALLOCATED] .CANCELED rfl).2.1 rfl,
   ((monitorInstallProgress_terminal_spec [.UNKNOWN, .IP_ALLOCATED] .COMPLETED rfl).2.2 rfl).1,
   ((monitorInstallProgress_terminal_spec [.UNKNOWN, .IP_ALLOCATED] .COMPLETED rfl).2.2 rfl).2.1⟩

/-! ## C9: zone URL parsing -/

theorem splitSlash_ne_nil (l : List Char) : splitSlash l ≠ [] := by
  cases l with
  | nil => simp [splitSlash]
  | cons c t =>
      unfold splitSlash
      by_cases hc : c = '/' <;> simp [hc]
      cases h : splitSlash t <;> simp

theorem splitSlash_append (a b : List Char) :
    splitSlash (a ++ '/' :: b) = splitSlash a ++ splitSlash b := by
  induction a with
  | nil => simp [splitSlash]
  | cons c t ih =>
      by_cases hc : c = '/'
      · simp [splitSlash, hc, ih]
      · cases h : splitSlash t with
        | nil => exact absurd h (splitSlash_ne_nil t)
        | cons s ss => simp [splitSlash, hc, ih, h]

theorem splitSlash_no_slash (a : List Char) (h : '/' ∉ a) : splitSlash a = [a] := by
  induction a with
  | nil => rfl
  | cons c t ih =>
      have hc : ¬ c = '/' := fun e => h (by simp [e])
      have ht : '/' ∉ t := fun hm => h (List.mem_cons_of_mem _ hm)
      simp [splitSlash, hc, ih ht]

/-- C9 counterexample: on a pathname that does not match the zone-URL
pattern, `parseZoneUrl` fails with the JS `TypeError` raised by reading
`.groups` from the `null` match result — not with a dedicated `ParseError`
format-error kind (no such kind exists in the code). -/
theorem parseZoneUrl_type_error_counterexample :
    parseZoneUrl "/foo/bar"
      = .error (.typeError "Cannot read properties of null reading groups")
  ∧ isParseErrorResult (parseZoneUrl "/foo/bar") = false :=
  ⟨rfl, rfl⟩

/-- C9 amended: a pathname ending in
`/compute/v1/projects/<p>/zones/<z>` (with `<p>`, `<z>` nonempty and
slash-free, after any prefix) parses to the `{projectId, zoneId}` pair; a
pathname the pattern does not match fails with the JS `TypeError` produced
by the `null.groups` read, not with a dedicated parse-error kind. -/
theorem parseZoneUrl_spec (pre p z : List Char)
    (hp : '/' ∉ p) (hz : '/' ∉ z) (hpne : p ≠ []) (hzne : z ≠ []) :
    parseZoneUrl ⟨pre ++ '/' :: ("compute".data ++ '/' :: ("v1".data ++ '/' ::
        ("projects".data ++ '/' :: (p ++ '/' :: ("zones".data ++ '/' :: z)))))⟩
      = .ok ⟨⟨p⟩, ⟨z⟩⟩
  ∧ (∀ s : String, matchZoneSegments (splitSlash s.data) = none →
        parseZoneUrl s
          = .error (.typeError "Cannot read properties of null reading groups")) := by
  constructor
  · have hsplit : splitSlash (pre ++ '/' :: ("compute".data ++ '/' :: ("v1".data ++ '/' ::
        ("projects".data ++ '/' :: (p ++ '/' :: ("zones".data ++ '/' :: z)))))) =
        splitSlash pre ++
          ["compute".data, "v1".data, "projects".data, p, "zones".data, z] := by
      rw [splitSlash_append, splitSlash_append, splitSlash_append, splitSlash_append,
        splitSlash_append, splitSlash_append]
      rw [splitSlash_no_slash "compute".data (by decide),
        splitSlash_no_slash "v1".data (by decide),
        splitSlash_no_slash "projects".data (by decide),
        splitSlash_no_slash p hp,
        splitSlash_no_slash "zones".data (by decide),
        splitSlash_no_slash z hz]
      simp
    obtain ⟨x, xs, hxs⟩ := List.exists_cons_of_ne_nil
      (fun hnil => splitSlash_ne_nil pre (List.reverse_eq_nil_iff.mp hnil) :
        (splitSlash pre).reverse ≠ [])
    show parseZoneUrl ⟨_⟩ = .ok ⟨⟨p⟩, ⟨z⟩⟩
    unfold parseZoneUrl
    have hdata : (⟨pre ++ '/' :: ("compute".data ++ '/' :: ("v1".data ++ '/' ::
        ("projects".data ++ '/' :: (p ++ '/' :: ("zones".data ++ '/' :: z)))))⟩ :
          String).data =
        pre ++ '/' :: ("compute".data ++ '/' :: ("v1".data ++ '/' ::
          ("projects".data ++ '/' :: (p ++ '/' :: ("zones".data ++ '/' :: z))))) := rfl
    rw [hdata, hsplit]
    unfold matchZoneSegments
    rw [List.reverse_append, hxs]
    simp only [List.reverse_cons, List.reverse_nil, List.nil_append, List.cons_append,
      List.append_assoc]
    simp [hpne, hzne]
  · intro s h
    unfold parseZoneUrl
    rw [h]

/-- Witness for C9 at a concrete well-formed zone URL pathname. -/
theorem parseZoneUrl_witness :
    parseZoneUrl "/compute/v1/projects/my-proj/zones/ru-central1-a"
      = .ok ⟨"my-proj", "ru-central1-a"⟩ :=
  (parseZoneUrl_spec [] "my-proj".data "ru-central1-a".data
    (by decide) (by decide) (by decide) (by decide)).1

/-! ## C2: attribute-to-transition mapping of one poll iteration -/

/-- C2 counterexample: a snapshot containing `install-error` together with
both `apiUrl` and `certSha256` yields `COMPLETED`, not `FAILED` — the
`apiUrl && certSha256` branch is evaluated before the `install-error`
branch, refuting "FAILED regardless of which other keys are present". -/
theorem pollDecision_install_error_counterexample :
    pollDecision [(kApiUrl, "api-url-value"), (kCertSha256, "c2hh"),
        (kInstallError, "boom")]
      = .completed "api-url-value" "c2hh"
  ∧ pollDecision [(kApiUrl, "api-url-value"), (kCertSha256, "c2hh"),
        (kInstallError, "boom")]
      ≠ .failed := by
  refine ⟨by decide, by decide⟩

/-- C2 amended: in one poll iteration, a snapshot with both `apiUrl` and
`certSha256` yields `COMPLETED` with the management handle built from those
two attribute values (this branch wins even over `install-error`); a
snapshot with `install-error` yields `FAILED` unless both `apiUrl` and
`certSha256` are present; a snapshot with `certSha256` but neither `apiUrl`
nor `install-error` yields `CERTIFICATE_CREATED`; a snapshot with
`install-started` but neither `certSha256` nor `install-error` yields
`INSTANCE_RUNNING`. -/
theorem pollDecision_priority_spec (attrs : GuestAttrs) :
    (hasKey attrs kApiUrl = true → hasKey attrs kCertSha256 = true →
        pollDecision attrs =
          .completed ((getKey attrs kApiUrl).getD "") ((getKey attrs kCertSha256).getD "")
      ∧ actionState (pollDecision attrs) = some .COMPLETED)
  ∧ (hasKey attrs kInstallError = true →
      ¬(hasKey attrs kApiUrl = true ∧ hasKey attrs kCertSha256 = true) →
        pollDecision attrs = .failed
      ∧ actionState (pollDecision attrs) = some .FAILED)
  ∧ (hasKey attrs kCertSha256 = true → hasKey attrs kApiUrl = false →
      hasKey attrs kInstallError = false →
        pollDecision attrs = .certificateCreated
      ∧ actionState (pollDecision attrs) = some .CERTIFICATE_CREATED)
  ∧ (hasKey attrs kInstallStarted = true → hasKey attrs kCertSha256 = false →
      hasKey attrs kInstallError = false →
        pollDecision attrs = .instanceRunning
      ∧ actionState (pollDecision attrs) = some .INSTANCE_RUNNING) := by
  refine ⟨fun h1 h2 => ?_, fun h1 h2 => ?_, fun h1 h2 h3 => ?_, fun h1 h2 h3 => ?_⟩
  · simp_all [pollDecision, actionState]
  · by_cases ha : hasKey attrs kApiUrl = true
    · have hb : hasKey attrs kCertSha256 = false := by
        cases hcb : hasKey attrs kCertSha256
        · rfl
        · exact absurd ⟨ha, hcb⟩ h2
      simp_all [pollDecision, actionState]
    · simp_all [pollDecision, actionState]
  · simp_all [pollDecision, actionState]
  · simp_all [pollDecision, actionState]

/-- Witness for C2 at concrete snapshots. -/
theorem pollDecision_priority_witness :
    (pollDecision [(kInstallStarted, "go")] = .instanceRunning
      ∧ actionState (pollDecision [(kInstallStarted, "go")])
          = some .INSTANCE_RUNNING)
  ∧ (pollDecision [(kApiUrl, "api-url-value"), (kCertSha256, "c2hh")]
        = .completed "api-url-value" "c2hh"
      ∧ actionState (pollDecision [(kApiUrl, "api-url-value"), (kCertSha256, "c2hh")])
          = some .COMPLETED) :=
  ⟨(pollDecision_priority_spec [(kInstallStarted, "go")]).2.2.2
      (by decide) (by decide) (by decide),
   (pollDecision_priority_spec [(kApiUrl, "api-url-value"), (kCertSha256, "c2hh")]).1
      (by decide) (by decide)⟩

/-! ## C3: bounded retry of the create-instance request -/

theorem makeCreateInstanceRequestFrom_spec {α : Type}
    (outcomes : Nat → Except CreateErr α) :
    ∀ (fuel count : Nat), MAX_REQUESTS - count ≤ fuel → count < MAX_REQUESTS →
    ∃ k, count ≤ k ∧ k < MAX_REQUESTS
      ∧ (∀ j, count ≤ j → j < k →
            ∃ e, outcomes (j + 1) = .error e ∧ isFinalizingError e = true)
      ∧ makeCreateInstanceRequestFrom outcomes count = outcomes (k + 1)
      ∧ createDelaysFrom outcomes count = List.replicate (k - count) RETRY_TIMEOUT_MS
      ∧ (∀ e, outcomes (k + 1) = .error e →
            (isFinalizingError e = false ∨ k + 1 = MAX_REQUESTS)) := by
  intro fuel
  induction fuel with
  | zero => intro count hfuel hcount; omega
  | succ f ih =>
      intro count hfuel hcount
      cases hout : outcomes (count + 1) with
      | ok r =>
          refine ⟨count, le_refl count, hcount, fun j hj1 hj2 => absurd hj1 (by omega),
            ?_, ?_, fun e he => absurd (hout.symm.trans he) (by simp)⟩
          · unfold makeCreateInstanceRequestFrom
            simp [hout]
          · unfold createDelaysFrom
            simp [hout]
      | error e =>
          by_cases hretry : isFinalizingError e = true ∧ count + 1 < MAX_REQUESTS
          · obtain ⟨k, hk1, hk2, hall, heq, hdel, hstop⟩ :=
              ih (count + 1) (by omega) hretry.2
            refine ⟨k, by omega, hk2, ?_, ?_, ?_, hstop⟩
            · intro j hj1 hj2
              rcases Nat.eq_or_lt_of_le hj1 with hj | hj
              · subst hj; exact ⟨e, hout, hretry.1⟩
              · exact hall j (by omega) hj2
            · unfold makeCreateInstanceRequestFrom
              simp only [hout]
              rw [if_pos hretry]
              exact heq
            · unfold createDelaysFrom
              simp only [hout]
              rw [if_pos hretry]
              rw [hdel]
              have : k - count = (k - (count + 1)) + 1 := by omega
              rw [this, List.replicate_succ]
          · refine ⟨count, le_refl count, hcount, fun j hj1 hj2 => absurd hj1 (by omega),
              ?_, ?_, ?_⟩
            · unfold makeCreateInstanceRequestFrom
              simp only [hout]
              rw [if_neg hretry]
            · unfold createDelaysFrom
              simp only [hout]
              rw [if_neg hretry]
              simp
            · intro e' he'
              have : e' = e := by
                have := hout.symm.trans he'
                simpa using this.symm
              subst this
              rcases Decidable.not_and_iff_or_not.mp hretry with h | h
              · exact Or.inl (by simpa using h)
              · exact Or.inr (by omega)

/-- C3: for every sequence of attempt outcomes there is an attempt number
`k + 1 ≤ 10` such that every earlier attempt failed with an error whose
message contains "finalizing" case-insensitively, the call settles exactly
as attempt `k + 1` settles (a success fulfills with that response; an error
is propagated unchanged, never wrapped), `k` retry delays of 5000 ms were
scheduled, and if attempt `k + 1` errored then either its message lacks
"finalizing" or the attempt budget of 10 was exhausted. -/
theorem makeCreateInstanceRequest_retry_spec {α : Type}
    (outcomes : Nat → Except CreateErr α) :
    ∃ k, k + 1 ≤ MAX_REQUESTS
      ∧ (∀ j, j < k →
            ∃ e, outcomes (j + 1) = .error e ∧ isFinalizingError e = true)
      ∧ makeCreateInstanceRequest outcomes = outcomes (k + 1)
      ∧ createDelays outcomes = List.replicate k RETRY_TIMEOUT_MS
      ∧ (∀ e, outcomes (k + 1) = .error e →
            (isFinalizingError e = false ∨ k + 1 = MAX_REQUESTS)) := by
  obtain ⟨k, _, hk2, hall, heq, hdel, hstop⟩ :=
    makeCreateInstanceRequestFrom_spec outcomes MAX_REQUESTS 0 (by omega)
      (by simp [MAX_REQUESTS])
  exact ⟨k, by omega, fun j hj => hall j (Nat.zero_le j) hj, heq,
    by simpa using hdel, hstop⟩

/-- Witness for C3 at a concrete outcome sequence (immediate success). -/
theorem makeCreateInstanceRequest_retry_witness :
    ∃ k, k + 1 ≤ MAX_REQUESTS
      ∧ (∀ j, j < k →
            ∃ e, (fun _ => (Except.ok 0 : Except CreateErr Nat)) (j + 1) = .error e
              ∧ isFinalizingError e = true)
      ∧ makeCreateInstanceRequest (fun _ => (Except.ok 0 : Except CreateErr Nat))
          = (fun _ => (Except.ok 0 : Except CreateErr Nat)) (k + 1)
      ∧ createDelays (fun _ => (Except.ok 0 : Except CreateErr Nat))
          = List.replicate k RETRY_TIMEOUT_MS
      ∧ (∀ e, (fun _ => (Except.ok 0 : Except CreateErr Nat)) (k + 1) = .error e →
            (isFinalizingError e = false ∨ k + 1 = MAX_REQUESTS)) :=
  makeCreateInstanceRequest_retry_spec (fun _ => Except.ok 0)

/-! ## C1: monotonicity of the recorded state sequence -/

/-- Every fired poll transition targets a state of order at least 3
(`INSTANCE_RUNNING`). -/
theorem actionState_order_ge (attrs : GuestAttrs) (s : InstallState)
    (h : actionState (pollDecision attrs) = some s) : 3 ≤ stateOrder s := by
  unfold pollDecision at h
  split_ifs at h <;> simp_all [actionState, stateOrder] <;> cases h <;> decide

/-- When `certSha256` is present, every fired poll transition targets a
state of order at least 4 (`CERTIFICATE_CREATED`). -/
theorem pollDecision_cert_ge (attrs : GuestAttrs) (s : InstallState)
    (hc : hasKey attrs kCertSha256 = true)
    (h : actionState (pollDecision attrs) = some s) : 4 ≤ stateOrder s := by
  unfold pollDecision at h
  split_ifs at h <;> simp_all [actionState, stateOrder] <;> cases h <;> decide

/-- A snapshot with `install-started` always fires some transition. -/
theorem pollDecision_ne_none_of_started (attrs : GuestAttrs)
    (hs : hasKey attrs kInstallStarted = true) :
    actionState (pollDecision attrs) ≠ none := by
  unfold pollDecision
  split_ifs <;> simp_all [actionState]

/-- A snapshot with `certSha256` always fires some transition. -/
theorem pollDecision_ne_none_of_cert (attrs : GuestAttrs)
    (hc : hasKey attrs kCertSha256 = true) :
    actionState (pollDecision attrs) ≠ none := by
  unfold pollDecision
  split_ifs <;> simp_all [actionState]

/-- Fired transitions target only the four milestone states. -/
theorem actionState_cases (attrs : GuestAttrs) (s : InstallState)
    (h : actionState (pollDecision attrs) = some s) :
    s = .COMPLETED ∨ s = .FAILED ∨ s = .CERTIFICATE_CREATED ∨ s = .INSTANCE_RUNNING := by
  unfold pollDecision at h
  split_ifs at h <;> simp_all [actionState]

/-- A transition to `CERTIFICATE_CREATED` only fires when `certSha256` is
present. -/
theorem pollDecision_certCreated_cert (attrs : GuestAttrs)
    (h : actionState (pollDecision attrs) = some .CERTIFICATE_CREATED) :
    hasKey attrs kCertSha256 = true := by
  unfold pollDecision at h
  split_ifs at h <;> simp_all [actionState]

/-- A transition to `INSTANCE_RUNNING` only fires when `install-started` is
present. -/
theorem pollDecision_running_started (attrs : GuestAttrs)
    (h : actionState (pollDecision attrs) = some .INSTANCE_RUNNING) :
    hasKey attrs kInstallStarted = true := by
  unfold pollDecision at h
  split_ifs at h <;> simp_all [actionState]

theorem pollStep_closed (m : InstallMachine) (attrs : GuestAttrs)
    (h : m.closed = true) : pollStep m attrs = m := by
  simp [pollStep, h]

theorem pollStep_le (prev a : GuestAttrs) (m : InstallMachine)
    (hmono : keysMono prev a) (hinv : pollInv prev m) :
    stateOrder m.state ≤ stateOrder (pollStep m a).state := by
  cases hc : m.closed with
  | true => simp [pollStep_closed m a hc]
  | false =>
      cases hd : actionState (pollDecision a) with
      | none => simp [pollStep, hc, hd]
      | some s =>
          have hps : (pollStep m a).state = s := by
            simp [pollStep, hc, hd, setInstallState]
          rw [hps]
          rcases hinv hc with h2 | ⟨hprev, hnf⟩
          · rw [h2]
            exact le_trans (show stateOrder InstallState.IP_ALLOCATED ≤ 3 by decide)
              (actionState_order_ge a s hd)
          · rcases actionState_cases prev m.state hprev with hm | hm | hm | hm
            · rw [hm] at hnf; simp [isFinal] at hnf
            · rw [hm] at hnf; simp [isFinal] at hnf
            · have hcert : hasKey a kCertSha256 = true :=
                hmono.2.1 (pollDecision_certCreated_cert prev (hm ▸ hprev))
              rw [hm]
              exact le_trans
                (show stateOrder InstallState.CERTIFICATE_CREATED ≤ 4 by decide)
                (pollDecision_cert_ge a s hcert hd)
            · rw [hm]
              exact le_trans
                (show stateOrder InstallState.INSTANCE_RUNNING ≤ 3 by decide)
                (actionState_order_ge a s hd)

theorem pollStep_inv (prev a : GuestAttrs) (m : InstallMachine)
    (hmono : keysMono prev a) (hinv : pollInv prev m) :
    pollInv a (pollStep m a) := by
  intro hopen
  cases hc : m.closed with
  | true =>
      rw [pollStep_closed m a hc] at hopen
      rw [hc] at hopen
      cases hopen
  | false =>
      cases hd : actionState (pollDecision a) with
      | none =>
          have hm : pollStep m a = m := by simp [pollStep, hc, hd]
          rw [hm]
          rcases hinv hc with h2 | ⟨hprev, hnf⟩
          · exact Or.inl h2
          · rcases actionState_cases prev m.state hprev with hs | hs | hs | hs
            · rw [hs] at hnf; simp [isFinal] at hnf
            · rw [hs] at hnf; simp [isFinal] at hnf
            · have hcert : hasKey a kCertSha256 = true :=
                hmono.2.1 (pollDecision_certCreated_cert prev (hs ▸ hprev))
              exact absurd hd (pollDecision_ne_none_of_cert a hcert)
            · have hst : hasKey a kInstallStarted = true :=
                hmono.2.2.2 (pollDecision_running_started prev (hs ▸ hprev))
              exact absurd hd (pollDecision_ne_none_of_started a hst)
      | some s =>
          have hps : pollStep m a = ⟨s, isFinal s⟩ := by
            simp [pollStep, hc, hd, setInstallState]
          rw [hps] at hopen
          rw [hps]
          refine Or.inr ⟨rfl, ?_⟩
          simpa using hopen

/-- Monotonicity of the poll-phase trace under accumulating snapshots. -/
theorem pollTrace_chain (snaps : List GuestAttrs) :
    ∀ (prev : GuestAttrs) (m : InstallMachine),
    List.Chain' keysMono (prev :: snaps) → pollInv prev m →
    List.Chain' (fun s1 s2 => stateOrder s1 ≤ stateOrder s2)
      ((List.scanl pollStep m snaps).map (fun mm => mm.state)) := by
  induction snaps with
  | nil => intro prev m _ _; simp
  | cons a rest ih =>
      intro prev m hchain hinv
      have hmono : keysMono prev a := (List.chain'_cons.mp hchain).1
      have htail : List.Chain' keysMono (a :: rest) := (List.chain'_cons.mp hchain).2
      simp only [List.scanl_cons, List.singleton_append, List.map_cons]
      rw [List.chain'_cons']
      constructor
      · intro y hy
        obtain ⟨tl, htl⟩ : ∃ tl, List.scanl pollStep (pollStep m a) rest
            = pollStep m a :: tl := by
          cases rest <;> exact ⟨_, rfl⟩
        rw [htl] at hy
        simp only [List.map_cons, List.head?_cons, Option.mem_def, Option.some.injEq] at hy
        rw [← hy]
        exact pollStep_le prev a m hmono hinv
      · exact ih a (pollStep m a) htail (pollStep_inv prev a m hmono hinv)

/-- C1 counterexample: starting the poll loop at `IP_ALLOCATED`, a snapshot
containing `certSha256` followed by a snapshot containing only
`install-started` records `CERTIFICATE_CREATED` and then
`INSTANCE_RUNNING` — the recorded sequence moves backwards under the
enum order, refuting the monotonicity claim for arbitrary snapshot
sequences. -/
theorem installState_regression_counterexample :
    ((List.scanl pollStep pollStartMachine
        [[(kCertSha256, "c2hh")], [(kInstallStarted, "go")]]).map
      (fun m => m.state))
      = [.IP_ALLOCATED, .CERTIFICATE_CREATED, .INSTANCE_RUNNING]
  ∧ stateOrder .INSTANCE_RUNNING < stateOrder .CERTIFICATE_CREATED := by
  refine ⟨by decide, by decide⟩

/-- C1 amended: when the watched milestone keys only accumulate across the
observed snapshots (each snapshot retains every watched key of its
predecessor, the empty snapshot preceding the first), the sequence of
states recorded by the poll loop started at `IP_ALLOCATED` is
non-decreasing under the enum order; and once the machine is closed (a
terminal state was recorded) no further transition is accepted — neither a
poll step nor a deletion request changes it. -/
theorem installState_monotone_of_accumulating_keys (snaps : List GuestAttrs)
    (h : List.Chain' keysMono (([] : GuestAttrs) :: snaps)) :
    List.Chain' (fun s1 s2 => stateOrder s1 ≤ stateOrder s2)
      ((List.scanl pollStep pollStartMachine snaps).map (fun m => m.state))
  ∧ (∀ (m : InstallMachine) (attrs : GuestAttrs), m.closed = true →
        pollStep m attrs = m ∧ onDelete m = m) := by
  constructor
  · exact pollTrace_chain snaps [] pollStartMachine h (fun _ => Or.inl rfl)
  · intro m attrs hm
    exact ⟨pollStep_closed m attrs hm, by simp [onDelete, hm]⟩

/-- Witness for C1 at a concrete accumulating snapshot sequence. -/
theorem installState_monotone_witness :
    List.Chain' (fun s1 s2 => stateOrder s1 ≤ stateOrder s2)
      ((List.scanl pollStep pollStartMachine
          [[(kInstallStarted, "go")],
            [(kInstallStarted, "go"), (kCertSha256, "c2hh")]]).map
        (fun m => m.state))
  ∧ (∀ (m : InstallMachine) (attrs : GuestAttrs), m.closed = true →
        pollStep m attrs = m ∧ onDelete m = m) :=
  installState_monotone_of_accumulating_keys
    [[(kInstallStarted, "go")], [(kInstallStarted, "go"), (kCertSha256, "c2hh")]]
    (by
      rw [List.chain'_cons, List.chain'_cons]
      exact ⟨by decide, by decide, List.chain'_singleton _⟩)
